import Mathlib

/-!
Verification of the recurring-appointment scheduling engine of
`counseling-server.js`: rule parsing (`parseRRule`), weekly instance
generation (`genWeeklyInstances`), the week window query
(`/api/schedule/week`), and the ICS export (`/api/ics`).

Timestamps are naive epoch milliseconds; the JavaScript `Date` local-time
getters are modelled with the local timezone taken as UTC (offset 0, no
DST), which is the reading the specification's own concrete epoch values
use. JavaScript numbers appearing in the relevant code paths hold exact
integers, so they are modelled as `Int`; `NaN` is modelled as `Option.none`
where it can arise.
-/

namespace Counseling

/-- Number of milliseconds in a day (`24 * 3600 * 1000` in the source). -/
def dayMs : Int := 86400000

/-- Model of `new Date(t).setHours(0, 0, 0, 0)`: midnight of the day
containing `t`. -/
def startOfDay (t : Int) : Int := t - t.emod dayMs

/-- Model of `new Date(t).getDay()`: day of week, 0 = Sunday. Epoch day 0
(1970-01-01) was a Thursday. -/
def jsGetDay (t : Int) : Nat := (((t.fdiv dayMs) + 4).emod 7).toNat

/-- Model of `new Date(t).getHours()`. -/
def jsGetHours (t : Int) : Int := (t.emod dayMs).fdiv 3600000

/-- Model of `new Date(t).getMinutes()`. -/
def jsGetMinutes (t : Int) : Int := ((t.emod dayMs).fdiv 60000).emod 60

/-- The `weekdayMap` array of the source: `['SU','MO','TU','WE','TH','FR','SA']`. -/
def weekdayMap : List String := ["SU", "MO", "TU", "WE", "TH", "FR", "SA"]

/-- Split a character list at every occurrence of `sep`; like JS
`String.prototype.split` with a single-character separator, the result for
the empty input is `[""]` and empty fields are kept. -/
def splitChars (sep : Char) (cs : List Char) : List (List Char) :=
  cs.foldr
    (fun c acc =>
      match acc with
      | [] => [[c]]
      | h :: t => if c = sep then [] :: h :: t else (c :: h) :: t)
    [[]]

/-- Model of JS `s.split(sep)` for a single-character separator. -/
def strSplit (s : String) (sep : Char) : List String :=
  (splitChars sep s.toList).map (fun cs => String.mk cs)

/-- ASCII uppercase of one character (the rule keys handled by the source
are ASCII). -/
def asciiUpper (c : Char) : Char :=
  if 'a' ≤ c ∧ c ≤ 'z' then Char.ofNat (c.toNat - 32) else c

/-- Model of JS `s.toUpperCase()` on ASCII strings. -/
def strUpper (s : String) : String := String.mk (s.toList.map asciiUpper)

/-- One step of `parseRRule`: split a piece on `'='` and, when the first
two parts are both truthy (nonempty), record `(key.toUpperCase, value)`. -/
def parsePiece (m : List (String × String)) (piece : String) :
    List (String × String) :=
  match strSplit piece '=' with
  | k :: v :: _ => if k != "" && v != "" then m ++ [(strUpper k, v)] else m
  | _ => m

/-- Model of `parseRRule`: split the rule string on `';'` and fold the
pieces into an association list. The list keeps assignment order; lookups
are last-wins, matching assignment into a JS object. -/
def parseRRule (rrule : String) : List (String × String) :=
  (strSplit rrule ';').foldl parsePiece []

/-- Last-wins lookup in the parsed rule map, matching `map[k] = v`
assignment semantics of the JS object built by `parseRRule`. -/
def ruleGet (m : List (String × String)) (key : String) : Option String :=
  m.foldl (fun acc kv => if kv.1 == key then some kv.2 else acc) none

/-- Model of JavaScript `Number(s)` restricted to optionally-signed decimal
integer literals; every other string behaves as `NaN`, modelled `none`.
(The scheduling code applies it only to `INTERVAL` values.) -/
def jsNumber (s : String) : Option Int :=
  let digits : List Char → Option Nat := fun cs =>
    cs.foldl
      (fun acc c =>
        match acc with
        | none => none
        | some n => if c.isDigit then some (n * 10 + (c.toNat - 48)) else none)
      (some 0)
  match s.toList with
  | [] => some 0
  | '-' :: rest =>
    if rest.isEmpty then none else (digits rest).map (fun n => -(n : Int))
  | '+' :: rest =>
    if rest.isEmpty then none else (digits rest).map (fun n => (n : Int))
  | cs => (digits cs).map (fun n => (n : Int))

/-- Model of `Math.max(1, Number(rule.INTERVAL || 1))`: `some 1` when the
key is absent, otherwise `max 1` of the parsed value, `none` when the value
is `NaN`. -/
def intervalOfRule (m : List (String × String)) : Option Int :=
  match ruleGet m "INTERVAL" with
  | none => some 1
  | some v => (jsNumber v).map (fun n => max 1 n)

/-- Model of `(rule.BYDAY || weekdayMap[new Date(dtstart).getDay()]).split(',')`. -/
def bydayOfRule (m : List (String × String)) (dtstart : Int) : List String :=
  match ruleGet m "BYDAY" with
  | some v => strSplit v ','
  | none => strSplit (weekdayMap.getD (jsGetDay dtstart) "") ','

/-- Model of `Number(x || 0) || null` applied to a nullable integer column:
`null` and `0` both become `null`. -/
def jsNumOrNull (x : Option Int) : Option Int :=
  match x with
  | some v => if v = 0 then none else some v
  | none => none

/-- Model of `x || d` where `x` is a possibly-absent, possibly-null number:
the fallback `d` is used when `x` is `undefined`, `null` or `0`. -/
def jsNumOr (x : Option Int) (d : Int) : Int :=
  match x with
  | some v => if v = 0 then d else v
  | none => d

/-- Model of `weeksFromStart % interval === 0`: `NaN` interval (`none`)
never matches; JS `%` agrees with `Int.emod` on the guarded domain
(`weeksFromStart ≥ 0`, `interval ≥ 1`). -/
def intervalHit (interval : Option Int) (w : Int) : Bool :=
  match interval with
  | some i => w.emod i == 0
  | none => false

/-- Model of `until && s > until` (the `until` bound rejects an occurrence). -/
def untilBlocked (untilB : Option Int) (s : Int) : Bool :=
  match untilB with
  | some u => decide (s > u)
  | none => false

/-- Model of `count && produced >= count` (the `count` cap rejects an
occurrence). -/
def countBlocked (countB : Option Int) (produced : Int) : Bool :=
  match countB with
  | some c => decide (produced ≥ c)
  | none => false

/-- A row of the `recurring_series` table. -/
structure RecurringSeries where
  id : String
  client_id : String
  rrule : String
  dtstart : Int
  duration_min : Int
  until_at : Option Int
  count : Option Int
deriving DecidableEq, Repr

/-- A generated occurrence of `genWeeklyInstances`
(`{ original_instance_at, start_at, end_at }`). -/
structure Instance where
  original_instance_at : Int
  start_at : Int
  end_at : Int
deriving DecidableEq, Repr

/-- Per-call constants of the `genWeeklyInstances` day loop. -/
structure GenCtx where
  weekStart : Int
  weekEnd : Int
  dtstart : Int
  byday : List String
  interval : Option Int
  untilB : Option Int
  countB : Option Int
  startMinutes : Int
  durMs : Int
deriving Repr

/-- The `while (cursor.getTime() <= weekEnd)` loop of `genWeeklyInstances`,
one fuel unit per day iteration; the fuel supplied by `genWeeklyInstances`
covers every cursor value the guard admits, so the guard `cursor ≤ weekEnd`
is the loop's real exit condition. `produced` counts pushes for the
`count` cap. -/
def genLoop (ctx : GenCtx) : Nat → Int → Int → List Instance
  | 0, _, _ => []
  | fuel + 1, cursor, produced =>
    if cursor ≤ ctx.weekEnd then
      let wd := weekdayMap.getD (jsGetDay cursor) ""
      let weeksFromStart := (cursor - startOfDay ctx.dtstart).fdiv (7 * dayMs)
      if 0 ≤ weeksFromStart ∧ intervalHit ctx.interval weeksFromStart
          ∧ ctx.byday.contains wd then
        let s := startOfDay cursor + (ctx.startMinutes.fdiv 60) * 3600000
          + (ctx.startMinutes.emod 60) * 60000
        let e := s + ctx.durMs
        if ctx.weekStart ≤ s ∧ s ≤ ctx.weekEnd ∧ ctx.dtstart ≤ s then
          if untilBlocked ctx.untilB s then
            genLoop ctx fuel (cursor + dayMs) produced
          else if countBlocked ctx.countB produced then
            genLoop ctx fuel (cursor + dayMs) produced
          else
            ⟨s, s, e⟩ :: genLoop ctx fuel (cursor + dayMs) (produced + 1)
        else genLoop ctx fuel (cursor + dayMs) produced
      else genLoop ctx fuel (cursor + dayMs) produced
    else []

/-- Exact upper bound on day-loop iterations from the first cursor
(`startOfDay weekStart`) while `cursor ≤ weekEnd`, plus slack; the in-loop
guard discards unused fuel. -/
def genFuel (weekStart weekEnd : Int) : Nat :=
  ((weekEnd - startOfDay weekStart).fdiv dayMs + 2).toNat

/-- Model of `genWeeklyInstances(series, weekStart, weekEnd)` with the
effective `INTERVAL` value passed explicitly (the source computes it as
`Math.max(1, Number(rule.INTERVAL || 1))`; `genWeeklyInstances` below
supplies exactly that). -/
def genWeeklyWithInterval (series : RecurringSeries) (interval : Option Int)
    (weekStart weekEnd : Int) : List Instance :=
  let rule := parseRRule series.rrule
  if ruleGet rule "FREQ" = some "WEEKLY" then
    genLoop
      { weekStart := weekStart
        weekEnd := weekEnd
        dtstart := series.dtstart
        byday := bydayOfRule rule series.dtstart
        interval := interval
        untilB := jsNumOrNull series.until_at
        countB := jsNumOrNull series.count
        startMinutes := jsGetHours series.dtstart * 60 + jsGetMinutes series.dtstart
        durMs := (if series.duration_min = 0 then 50 else series.duration_min) * 60000 }
      (genFuel weekStart weekEnd) (startOfDay weekStart) 0
  else []

/-- Model of `genWeeklyInstances(series, weekStart, weekEnd)` from the
source: parse the rule, require `FREQ === 'WEEKLY'`, then walk the window
day by day. -/
def genWeeklyInstances (series : RecurringSeries) (weekStart weekEnd : Int) :
    List Instance :=
  genWeeklyWithInterval series (intervalOfRule (parseRRule series.rrule))
    weekStart weekEnd

/-- A row of the `clients` table (the fields the scheduling code reads). -/
structure Client where
  id : String
  name : String
deriving DecidableEq, Repr

/-- A row of the `appointments` table (the fields the scheduling code reads). -/
structure Appointment where
  id : String
  client_id : String
  start_at : Int
  end_at : Int
  status : String
  recurring_series_id : Option String
  original_instance_at : Option Int
deriving DecidableEq, Repr

/-- A row of the `recurring_exceptions` table. -/
structure RecurringException where
  id : String
  recurring_series_id : String
  original_instance_at : Int
  new_start_at : Option Int
  new_end_at : Option Int
  status : String
deriving DecidableEq, Repr

/-- The database state read by the window query and the ICS export; each
list is in table (rowid) order. -/
structure Store where
  clients : List Client
  appointments : List Appointment
  series : List RecurringSeries
  exceptions : List RecurringException
deriving DecidableEq, Repr

/-- An element of the JSON array returned by `/api/schedule/week`. -/
structure CalendarEvent where
  id : String
  source : String
  clientId : String
  clientName : String
  startAt : Int
  endAt : Int
  status : String
  recurringSeriesId : Option String
  originalInstanceAt : Option Int
deriving DecidableEq, Repr

/-- Model of the `singles` query plus its mapping in
`app.get('/api/schedule/week')`: appointments with
`start_at BETWEEN weekStart AND weekEnd`, joined to their client row. -/
def singlesEvents (st : Store) (weekStart weekEnd : Int) : List CalendarEvent :=
  st.appointments.filterMap (fun a =>
    if weekStart ≤ a.start_at ∧ a.start_at ≤ weekEnd then
      (st.clients.find? (fun c => c.id == a.client_id)).map (fun c =>
        { id := a.id
          source := "single"
          clientId := a.client_id
          clientName := c.name
          startAt := a.start_at
          endAt := a.end_at
          status := a.status
          recurringSeriesId := a.recurring_series_id
          originalInstanceAt := a.original_instance_at })
    else none)

/-- Model of the `seriesRows` query: series with `dtstart <= weekEnd AND
(until_at IS NULL OR until_at >= weekStart)`. -/
def seriesInWindow (st : Store) (weekStart weekEnd : Int) :
    List RecurringSeries :=
  st.series.filter (fun s =>
    decide (s.dtstart ≤ weekEnd) &&
      match s.until_at with
      | none => true
      | some u => decide (weekStart ≤ u))

/-- Model of `client?.name || '未知个案'` for a series' client lookup. -/
def clientNameFor (st : Store) (clientId : String) : String :=
  match st.clients.find? (fun c => c.id == clientId) with
  | some c => if c.name == "" then "未知个案" else c.name
  | none => "未知个案"

/-- Model of `new Map(exceptions.map((e) => [e.original_instance_at, e]))`
followed by `mapEx.get(k)`: the last exception in row order with the given
`original_instance_at` (later `Map` entries overwrite earlier ones). -/
def exLookup (exs : List RecurringException) (k : Int) :
    Option RecurringException :=
  exs.foldl (fun acc e => if e.original_instance_at == k then some e else acc)
    none

/-- Model of the loop body over one generated instance: skip it when the
matching exception's status is exactly `'Canceled'`, otherwise emit the
virtual occurrence, with `startAt`/`endAt` taken from the exception's
`new_start_at`/`new_end_at` when those are truthy
(`ex?.new_start_at || item.start_at`). -/
def applyException (seriesId clientId clientName : String)
    (ex? : Option RecurringException) (item : Instance) :
    Option CalendarEvent :=
  if ex?.map (fun e => e.status) == some "Canceled" then none
  else
    some
      { id := seriesId ++ ":" ++ toString item.original_instance_at
        source := "recurring"
        clientId := clientId
        clientName := clientName
        startAt := jsNumOr (ex?.bind (fun e => e.new_start_at)) item.start_at
        endAt := jsNumOr (ex?.bind (fun e => e.new_end_at)) item.end_at
        status := "Scheduled"
        recurringSeriesId := some seriesId
        originalInstanceAt := some item.original_instance_at }

/-- Events contributed by one series row: generate instances for the
window, then overlay that series' exceptions. -/
def seriesEvents (st : Store) (s : RecurringSeries) (weekStart weekEnd : Int) :
    List CalendarEvent :=
  (genWeeklyInstances s weekStart weekEnd).filterMap (fun item =>
    applyException s.id s.client_id (clientNameFor st s.client_id)
      (exLookup (st.exceptions.filter (fun e => e.recurring_series_id == s.id))
        item.original_instance_at)
      item)

/-- The event list before the final sort: one-off/anchor rows first, then
each eligible series' overlaid occurrences, series in store order. -/
def rawEvents (st : Store) (weekStart weekEnd : Int) : List CalendarEvent :=
  singlesEvents st weekStart weekEnd ++
    (seriesInWindow st weekStart weekEnd).foldr
      (fun s acc => seriesEvents st s weekStart weekEnd ++ acc) []

/-- Stable insertion step for the final sort: `e` is placed after every
earlier element whose `startAt` is strictly smaller, and before the first
element whose `startAt` is greater than or equal, which is how a stable
sort orders an element relative to later-encountered ones. -/
def insertEvent (e : CalendarEvent) : List CalendarEvent → List CalendarEvent
  | [] => [e]
  | x :: xs =>
    if x.startAt < e.startAt then x :: insertEvent e xs else e :: x :: xs

/-- Model of `eventList.sort((a, b) => a.startAt - b.startAt)`:
`Array.prototype.sort` is stable, so this is a stable sort on `startAt`. -/
def sortEvents : List CalendarEvent → List CalendarEvent
  | [] => []
  | x :: xs => insertEvent x (sortEvents xs)

/-- The JSON array `/api/schedule/week` responds with for a valid window. -/
def weekEvents (st : Store) (weekStart weekEnd : Int) : List CalendarEvent :=
  sortEvents (rawEvents st weekStart weekEnd)

/-- Model of the full `app.get('/api/schedule/week')` handler. The inputs
are the query parameters after `Number(...)`: `none` stands for a missing
or non-numeric parameter (`NaN`); the guard
`if (!weekStart || !weekEnd) return 400` rejects `NaN` and `0`. -/
def scheduleWeekHandler (st : Store) (weekStart? weekEnd? : Option Int) :
    Except String (List CalendarEvent) :=
  match weekStart?, weekEnd? with
  | some ws, some we =>
    if ws = 0 ∨ we = 0 then Except.error "weekStart and weekEnd required"
    else Except.ok (weekEvents st ws we)
  | _, _ => Except.error "weekStart and weekEnd required"

/-- Gregorian date from a day number (days since 1970-01-01), the standard
era-based civil-from-days computation; models the JS `Date` UTC getters
`getUTCFullYear`/`getUTCMonth() + 1`/`getUTCDate`. All inner divisions act
on nonnegative values, so `Int.fdiv` agrees with the usual truncation. -/
def civilFromDays (z0 : Int) : Int × Int × Int :=
  let z := z0 + 719468
  let era := z.fdiv 146097
  let doe := z - era * 146097
  let yoe := (doe - doe.fdiv 1460 + doe.fdiv 36524 - doe.fdiv 146096).fdiv 365
  let y := yoe + era * 400
  let doy := doe - (365 * yoe + yoe.fdiv 4 - yoe.fdiv 100)
  let mp := (5 * doy + 2).fdiv 153
  let d := doy - (153 * mp + 2).fdiv 5 + 1
  let m := mp + (if mp < 10 then 3 else (-9 : Int))
  (y + (if m ≤ 2 then 1 else 0), m, d)

/-- Model of `String(n).padStart(2, '0')` for the nonnegative calendar
components. -/
def pad2 (n : Int) : String :=
  if n < 10 then "0" ++ toString n else toString n

/-- Model of `formatIcsDate`: UTC `YYYYMMDDThhmmssZ`. -/
def formatIcsDate (epochMs : Int) : String :=
  let date := civilFromDays (epochMs.fdiv dayMs)
  let rem := epochMs.emod dayMs
  toString date.1 ++ pad2 date.2.1 ++ pad2 date.2.2 ++ "T"
    ++ pad2 (rem.fdiv 3600000) ++ pad2 ((rem.fdiv 60000).emod 60)
    ++ pad2 ((rem.fdiv 1000).emod 60) ++ "Z"

/-- Model of `String(e.client_name).replace(/[,;\\]/g, '')`: strip the
calendar-reserved characters from the summary. -/
def stripSummary (s : String) : String :=
  String.mk (s.toList.filter (fun c => !(c == ',' || c == ';' || c == '\\')))

/-- The lines pushed for one fetched appointment row in
`app.get('/api/ics')`: the `VEVENT` block, with `STATUS:CANCELLED` only for
a `Canceled` row and an `RRULE:` line copied verbatim from the series row
when the appointment references a series that exists and stores a truthy
rule string. -/
def veventLines (st : Store) (nowMs : Int) (a : Appointment)
    (clientName : String) : List String :=
  ["BEGIN:VEVENT",
   "UID:" ++ a.id ++ "@local",
   "DTSTAMP:" ++ formatIcsDate nowMs,
   "DTSTART:" ++ formatIcsDate a.start_at,
   "DTEND:" ++ formatIcsDate a.end_at,
   "SUMMARY:" ++ stripSummary clientName]
  ++ (if a.status == "Canceled" then ["STATUS:CANCELLED"] else [])
  ++ (match a.recurring_series_id with
      | some sid =>
        if sid == "" then []
        else
          match st.series.find? (fun s => s.id == sid) with
          | some sr => if sr.rrule == "" then [] else ["RRULE:" ++ sr.rrule]
          | none => []
      | none => [])
  ++ ["END:VEVENT"]

/-- Model of the `events` fetch of `app.get('/api/ics')`: appointments with
`status != 'Canceled'`, joined to their client row for the summary name. -/
def icsEvents (st : Store) : List (Appointment × String) :=
  st.appointments.filterMap (fun a =>
    if a.status == "Canceled" then none
    else
      (st.clients.find? (fun c => c.id == a.client_id)).map (fun c =>
        (a, c.name)))

/-- Model of the full line list built by `app.get('/api/ics')` (joined with
`\r\n` in the response). -/
def icsLines (st : Store) (nowMs : Int) : List String :=
  ["BEGIN:VCALENDAR", "VERSION:2.0", "PRODID:-//Counseling CRM//CN",
   "CALSCALE:GREGORIAN"]
  ++ (icsEvents st).foldr (fun p acc => veventLines st nowMs p.1 p.2 ++ acc) []
  ++ ["END:VCALENDAR"]

/-- Number of occurrences of a line in a line list. -/
def countLine (lines : List String) (line : String) : Nat :=
  (lines.filter (fun l => l == line)).length

/-- Event order used by the week feed: ascending `startAt`. -/
def startLE (a b : CalendarEvent) : Prop := a.startAt ≤ b.startAt

/-- Whether a piece of a rule string is malformed (no `'='`) or carries a
key other than the recognized `FREQ`/`BYDAY`/`INTERVAL`. -/
def pieceUnknown (piece : String) : Bool :=
  match strSplit piece '=' with
  | k :: _ :: _ =>
    !(strUpper k == "FREQ" || strUpper k == "BYDAY" || strUpper k == "INTERVAL")
  | _ => true

/-! Concrete fixtures used by the concrete-input theorems below. Epoch
values: `1759917600000` is 2025-10-08T10:00 (a Wednesday),
`1760522400000` is 2025-10-15T10:00, `1759708800000` is 2025-10-06T00:00,
`1760313540000` is 2025-10-12T23:59, `1760313600000` is 2025-10-13T00:00,
`1760918340000` is 2025-10-19T23:59. -/

/-- Fixture client. -/
def aliceClient : Client := ⟨"c1", "Alice"⟩

/-- Fixture weekly series anchored at 2025-10-08T10:00, `BYDAY=WE`. -/
def wedSeries : RecurringSeries :=
  ⟨"s1", "c1", "FREQ=WEEKLY;BYDAY=WE", 1759917600000, 50, none, none⟩

/-- Fixture anchor appointment of `wedSeries` (`start_at = dtstart`, as the
creation endpoint writes it). -/
def anchorAppt : Appointment :=
  ⟨"a1", "c1", 1759917600000, 1759920600000, "Scheduled", some "s1", none⟩

/-- Fixture canceled one-off appointment. -/
def canceledAppt : Appointment :=
  ⟨"a2", "c1", 1000, 2000, "Canceled", none, none⟩

/-- Fixture store: one client, the anchor appointment, its series. -/
def demoStore : Store := ⟨[aliceClient], [anchorAppt], [wedSeries], []⟩

/-- Fixture store for the ICS export: adds a canceled appointment. -/
def icsStore : Store :=
  ⟨[aliceClient], [anchorAppt, canceledAppt], [wedSeries], []⟩

/-- Fixture `Moved` exception for the 2025-10-15T10:00 occurrence of
`wedSeries`, moved to 2025-10-16T14:00. -/
def movedEx : RecurringException :=
  ⟨"e1", "s1", 1760522400000, some 1760623200000, some 1760626200000, "Moved"⟩

/-- Fixture store containing `movedEx`. -/
def movedStore : Store := ⟨[aliceClient], [anchorAppt], [wedSeries], [movedEx]⟩

/-- Fixture exception with a status outside `{Moved, Canceled}`, a `null`
`new_start_at` and a `0` `new_end_at`. -/
def weirdEx : RecurringException := ⟨"e2", "s1", 42, none, some 0, "Postponed"⟩

/-- Fixture series whose rule has `INTERVAL=0`. -/
def intervalZeroSeries : RecurringSeries :=
  ⟨"s2", "c1", "FREQ=WEEKLY;BYDAY=WE;INTERVAL=0", 1759917600000, 50, none, none⟩

/-- Fixture series whose rule has a non-weekly frequency. -/
def dailySeries : RecurringSeries :=
  ⟨"s3", "c1", "FREQ=DAILY", 1759917600000, 50, none, none⟩

/-- Fixture series whose rule is only malformed or unknown pairs. -/
def junkSeries : RecurringSeries :=
  ⟨"s4", "c1", "FOO=1;BAR", 1759917600000, 50, none, none⟩

/-! Helper lemmas about the generator loop, the stable sort, and the parsed
rule map. -/

theorem mem_genLoop (ctx : GenCtx) (fuel : Nat) :
    ∀ cursor produced inst, inst ∈ genLoop ctx fuel cursor produced →
      ctx.weekStart ≤ inst.start_at ∧ inst.start_at ≤ ctx.weekEnd ∧
        ctx.dtstart ≤ inst.start_at := by
  induction fuel with
  | zero => intro c p i h; simp [genLoop] at h
  | succ n ih =>
    intro c p i h
    simp only [genLoop] at h
    split at h
    · split at h
      · split at h
        · rename_i hwin
          split at h
          · exact ih _ _ _ h
          · split at h
            · exact ih _ _ _ h
            · rcases List.mem_cons.mp h with rfl | h
              · exact ⟨hwin.1, hwin.2.1, hwin.2.2⟩
              · exact ih _ _ _ h
        · exact ih _ _ _ h
      · exact ih _ _ _ h
    · simp at h

theorem genLoop_eq_nil_of_inverted (ctx : GenCtx)
    (hlt : ctx.weekEnd < ctx.weekStart) (fuel : Nat) :
    ∀ cursor produced, genLoop ctx fuel cursor produced = [] := by
  induction fuel with
  | zero => intro c p; rfl
  | succ n ih =>
    intro c p
    simp only [genLoop]
    split
    · split
      · split
        · rename_i hwin
          exact absurd (le_trans hwin.1 hwin.2.1) (by omega)
        · exact ih _ _
      · exact ih _ _
    · rfl

theorem genWeeklyInstances_eq_nil_of_inverted (series : RecurringSeries)
    (weekStart weekEnd : Int) (hlt : weekEnd < weekStart) :
    genWeeklyInstances series weekStart weekEnd = [] := by
  simp only [genWeeklyInstances, genWeeklyWithInterval]
  by_cases hf : ruleGet (parseRRule series.rrule) "FREQ" = some "WEEKLY"
  · rw [if_pos hf]
    apply genLoop_eq_nil_of_inverted
    exact hlt
  · rw [if_neg hf]

theorem mem_insertEvent (e x : CalendarEvent) :
    ∀ l, x ∈ insertEvent e l ↔ x = e ∨ x ∈ l := by
  intro l
  induction l with
  | nil => simp [insertEvent]
  | cons y ys ih =>
    simp only [insertEvent]
    split
    · simp only [List.mem_cons, ih]
      tauto
    · simp only [List.mem_cons]

theorem pairwise_insertEvent (e : CalendarEvent) :
    ∀ l, l.Pairwise startLE → (insertEvent e l).Pairwise startLE := by
  intro l
  induction l with
  | nil => intro _; simp [insertEvent, startLE]
  | cons y ys ih =>
    intro h
    rcases List.pairwise_cons.mp h with ⟨hyall, hys⟩
    simp only [insertEvent]
    split
    · rename_i hy
      refine List.pairwise_cons.mpr ⟨?_, ih hys⟩
      intro z hz
      rcases (mem_insertEvent e z ys).mp hz with rfl | hz'
      · exact le_of_lt hy
      · exact hyall z hz'
    · rename_i hy
      refine List.pairwise_cons.mpr ⟨?_, h⟩
      intro z hz
      rcases List.mem_cons.mp hz with rfl | hz'
      · exact not_lt.mp hy
      · exact le_trans (not_lt.mp hy) (hyall z hz')

theorem filter_insertEvent (v : Int) (e : CalendarEvent) :
    ∀ l, (insertEvent e l).filter (fun x => x.startAt == v) =
      if e.startAt == v then
        e :: l.filter (fun x => x.startAt == v)
      else l.filter (fun x => x.startAt == v) := by
  intro l
  induction l with
  | nil => simp [insertEvent, List.filter_cons]
  | cons y ys ih =>
    simp only [insertEvent]
    split
    · rename_i hy
      rw [List.filter_cons, ih]
      by_cases he : e.startAt = v
      · have hyv : (y.startAt == v) = false := beq_eq_false_iff_ne.mpr (by omega)
        have he' : (e.startAt == v) = true := beq_iff_eq.mpr he
        simp [hyv, he']
      · have he' : (e.startAt == v) = false := beq_eq_false_iff_ne.mpr he
        simp [he', List.filter_cons]
    · rw [List.filter_cons]

theorem sortEvents_pairwise : ∀ l, (sortEvents l).Pairwise startLE := by
  intro l
  induction l with
  | nil => simp [sortEvents]
  | cons x xs ih => exact pairwise_insertEvent x _ ih

theorem sortEvents_filter (v : Int) :
    ∀ l, (sortEvents l).filter (fun x => x.startAt == v) =
      l.filter (fun x => x.startAt == v) := by
  intro l
  induction l with
  | nil => rfl
  | cons x xs ih =>
    simp only [sortEvents, filter_insertEvent, ih, List.filter_cons]

theorem ruleGet_append (acc : List (String × String)) (kv : String × String)
    (key : String) :
    ruleGet (acc ++ [kv]) key =
      if kv.1 == key then some kv.2 else ruleGet acc key := by
  simp [ruleGet, List.foldl_append]

theorem ruleGet_parsePiece_freq (acc : List (String × String)) (p : String)
    (h : pieceUnknown p = true) :
    ruleGet (parsePiece acc p) "FREQ" = ruleGet acc "FREQ" := by
  cases hsp : strSplit p '=' with
  | nil => simp only [parsePiece, hsp]
  | cons k rest =>
    cases rest with
    | nil => simp only [parsePiece, hsp]
    | cons vv rest2 =>
      simp only [pieceUnknown, hsp, Bool.not_eq_true', Bool.or_eq_false_iff] at h
      have hne : (strUpper k == "FREQ") = false := h.1.1
      simp only [parsePiece, hsp]
      split
      · rw [ruleGet_append]
        simp [hne]
      · rfl

theorem ruleGet_parse_freq_none (pieces : List String)
    (h : ∀ p ∈ pieces, pieceUnknown p = true) :
    ∀ acc, ruleGet (pieces.foldl parsePiece acc) "FREQ" = ruleGet acc "FREQ" := by
  induction pieces with
  | nil => intro acc; rfl
  | cons p ps ih =>
    intro acc
    rw [List.foldl_cons,
      ih (fun q hq => h q (List.mem_cons_of_mem _ hq)) (parsePiece acc p),
      ruleGet_parsePiece_freq acc p (h p (List.mem_cons_self _ _))]

/-! Claim theorems. -/

/-- C1 (demonstration of the divergence): on a store holding a series, its
anchor appointment with `start_at = dtstart`, and no exceptions, a window
query containing `dtstart` returns the anchor's nominal slot twice — once
as the anchor row `a1` and once more as the virtual occurrence
`s1:1759917600000` regenerated by the instance generator, whose
`startAt < dtstart` rejection is strict and so admits the slot at exactly
`dtstart`. The claim says the virtual duplicate must never appear. -/
theorem anchor_slot_double_emitted :
    weekEvents demoStore 1759708800000 1760313540000 =
      [{ id := "a1", source := "single", clientId := "c1",
         clientName := "Alice", startAt := 1759917600000,
         endAt := 1759920600000, status := "Scheduled",
         recurringSeriesId := some "s1", originalInstanceAt := none },
       { id := "s1:1759917600000", source := "recurring", clientId := "c1",
         clientName := "Alice", startAt := 1759917600000,
         endAt := 1759920600000, status := "Scheduled",
         recurringSeriesId := some "s1",
         originalInstanceAt := some 1759917600000 }] := by decide

/-- C2 counterexample: with both bounds numeric and nonzero but inverted
(`weekStart = 2 > 1 = weekEnd`), the week handler does not fail with a
validation error; it returns a normal (`ok`) result. -/
theorem inverted_window_not_rejected :
    scheduleWeekHandler demoStore (some 2) (some 1) = Except.ok [] := by rfl

/-- C2 amended: the handler's validation only rejects missing, `NaN` or `0`
bounds; a window whose two bounds are numeric, nonzero and inverted passes
validation and the query returns a normal result, which is always the
empty event list. -/
theorem inverted_window_returns_ok_empty (st : Store) (weekStart weekEnd : Int)
    (hinv : weekEnd < weekStart) (h1 : weekStart ≠ 0) (h2 : weekEnd ≠ 0) :
    scheduleWeekHandler st (some weekStart) (some weekEnd) = Except.ok [] := by
  have hs : singlesEvents st weekStart weekEnd = [] := by
    unfold singlesEvents
    apply List.filterMap_eq_nil_iff.mpr
    intro a _
    rw [if_neg (by omega)]
  have hser : ∀ s, seriesEvents st s weekStart weekEnd = [] := by
    intro s
    unfold seriesEvents
    rw [genWeeklyInstances_eq_nil_of_inverted _ _ _ hinv]
    rfl
  have hfold : ∀ L : List RecurringSeries,
      L.foldr (fun s acc => seriesEvents st s weekStart weekEnd ++ acc) []
        = [] := by
    intro L
    induction L with
    | nil => rfl
    | cons a L ihL => simp [hser a, ihL]
  have hwe : weekEvents st weekStart weekEnd = [] := by
    unfold weekEvents rawEvents
    rw [hs, hfold]
    rfl
  simp only [scheduleWeekHandler]
  rw [if_neg (not_or.mpr ⟨h1, h2⟩), hwe]

/-- C2 amended, witness: a concrete inverted window on the demo store. -/
theorem inverted_window_returns_ok_empty_witness :
    scheduleWeekHandler demoStore (some 5) (some 3) = Except.ok [] :=
  inverted_window_returns_ok_empty demoStore 5 3 (by decide) (by decide)
    (by decide)

/-- C3: the series with `dtstart = 2025-10-08T10:00` (epoch
`1759917600000`), rule `FREQ=WEEKLY;BYDAY=WE`, duration 50 and no
exceptions generates, for the window
`[2025-10-13T00:00, 2025-10-19T23:59]`, exactly one instance:
`startAt = originalInstanceAt = 2025-10-15T10:00` (epoch `1760522400000`)
and `endAt = 2025-10-15T10:50`. -/
theorem weekly_scenario_exactly_one_instance :
    genWeeklyInstances wedSeries 1760313600000 1760918340000 =
      [⟨1760522400000, 1760522400000, 1760525400000⟩] := by decide

/-- C5: every instance produced by the generator (before the exception
overlay) has its `start_at` inside the inclusive window and at or after the
series' `dtstart`. -/
theorem generated_instance_window_containment (series : RecurringSeries)
    (weekStart weekEnd : Int) (inst : Instance) (hw : weekStart ≤ weekEnd)
    (hmem : inst ∈ genWeeklyInstances series weekStart weekEnd) :
    weekStart ≤ inst.start_at ∧ inst.start_at ≤ weekEnd ∧
      series.dtstart ≤ inst.start_at := by
  revert hmem
  simp only [genWeeklyInstances, genWeeklyWithInterval]
  split
  · intro hmem
    exact mem_genLoop _ _ _ _ _ hmem
  · intro hmem
    simp at hmem

/-- C5, witness: the single generated instance of the C3 scenario satisfies
the window-containment bounds. -/
theorem generated_instance_window_containment_witness :
    1760313600000 ≤ (1760918340000 : Int) ∧
    (⟨1760522400000, 1760522400000, 1760525400000⟩ : Instance) ∈
      genWeeklyInstances wedSeries 1760313600000 1760918340000 ∧
    ((1760313600000 : Int) ≤ 1760522400000 ∧
      (1760522400000 : Int) ≤ 1760918340000 ∧
      wedSeries.dtstart ≤ 1760522400000) :=
  ⟨by decide, by decide,
    generated_instance_window_containment wedSeries 1760313600000 1760918340000
      ⟨1760522400000, 1760522400000, 1760525400000⟩ (by decide) (by decide)⟩

/-- C6: a rule whose `FREQ` entry is absent or differs from `'WEEKLY'`
yields no occurrences, and a rule made only of malformed (no `'='`) or
unknown-key pieces yields no occurrences; in both cases the generator
returns the empty list (total, no failure). -/
theorem non_weekly_or_junk_rule_yields_empty (series : RecurringSeries)
    (weekStart weekEnd : Int) :
    (ruleGet (parseRRule series.rrule) "FREQ" ≠ some "WEEKLY" →
      genWeeklyInstances series weekStart weekEnd = [])
    ∧ ((∀ p ∈ strSplit series.rrule ';', pieceUnknown p = true) →
      genWeeklyInstances series weekStart weekEnd = []) := by
  constructor
  · intro hf
    simp only [genWeeklyInstances, genWeeklyWithInterval]
    rw [if_neg hf]
  · intro hall
    have hnone : ruleGet (parseRRule series.rrule) "FREQ" = none := by
      unfold parseRRule
      rw [ruleGet_parse_freq_none _ hall []]
      rfl
    simp only [genWeeklyInstances, genWeeklyWithInterval]
    rw [if_neg (by rw [hnone]; simp)]

/-- C6, witness: a `FREQ=DAILY` rule and an all-junk rule both generate
nothing on a concrete window. -/
theorem non_weekly_or_junk_rule_yields_empty_witness :
    genWeeklyInstances dailySeries 0 604800000 = [] ∧
    genWeeklyInstances junkSeries 0 604800000 = [] :=
  ⟨(non_weekly_or_junk_rule_yields_empty dailySeries 0 604800000).1 (by decide),
    (non_weekly_or_junk_rule_yields_empty junkSeries 0 604800000).2 (by decide)⟩

/-- C7: the week query's response is the stable sort of the encounter-order
event list by `startAt`: it is pairwise sorted ascending, events with equal
`startAt` appear exactly in encounter order, and the encounter order is
one-off/anchor rows first followed by each eligible series' expansions in
store order. -/
theorem week_events_sorted_and_stable (st : Store) (weekStart weekEnd : Int) :
    (weekEvents st weekStart weekEnd).Pairwise startLE
    ∧ (∀ v : Int,
        (weekEvents st weekStart weekEnd).filter (fun x => x.startAt == v) =
          (rawEvents st weekStart weekEnd).filter (fun x => x.startAt == v))
    ∧ rawEvents st weekStart weekEnd =
        singlesEvents st weekStart weekEnd ++
          (seriesInWindow st weekStart weekEnd).foldr
            (fun s acc => seriesEvents st s weekStart weekEnd ++ acc) [] :=
  ⟨sortEvents_pairwise _, fun v => sortEvents_filter v _, rfl⟩

/-- C9: when the rule's `INTERVAL` value parses to a number `n ≤ 1`
(including `0` and negatives), the generator behaves exactly as if
`INTERVAL` were `1`, because the source clamps with
`Math.max(1, Number(...))`. -/
theorem interval_le_one_acts_as_one (series : RecurringSeries)
    (weekStart weekEnd : Int) (v : String) (n : Int)
    (h1 : ruleGet (parseRRule series.rrule) "INTERVAL" = some v)
    (h2 : jsNumber v = some n) (h3 : n ≤ 1) :
    genWeeklyInstances series weekStart weekEnd =
      genWeeklyWithInterval series (some 1) weekStart weekEnd := by
  unfold genWeeklyInstances
  have hiv : intervalOfRule (parseRRule series.rrule) = some 1 := by
    simp only [intervalOfRule, h1, h2, Option.map_some']
    rw [max_eq_left h3]
  rw [hiv]

/-- C9, witness: `INTERVAL=0` generates exactly as `INTERVAL` forced to 1. -/
theorem interval_le_one_acts_as_one_witness :
    genWeeklyInstances intervalZeroSeries 1760313600000 1760918340000 =
      genWeeklyWithInterval intervalZeroSeries (some 1) 1760313600000
        1760918340000 :=
  interval_le_one_acts_as_one intervalZeroSeries 1760313600000 1760918340000
    "0" 0 (by decide) (by decide) (by decide)

/-- C4: for a generated instance of a series in a window query, a matching
`Canceled` exception removes the instance from the series' events; a
matching `Moved` exception (with its new times present and nonzero) keeps
the instance with `startAt`/`endAt` replaced while the synthetic id
`seriesId:originalInstanceAt` and `originalInstanceAt` are unchanged; with
no matching exception the instance passes through unchanged with status
`Scheduled`. -/
theorem exception_overlay_cases (st : Store) (s : RecurringSeries)
    (weekStart weekEnd : Int) (item : Instance)
    (hmem : item ∈ genWeeklyInstances s weekStart weekEnd) :
    (∀ ex,
      exLookup (st.exceptions.filter (fun e => e.recurring_series_id == s.id))
          item.original_instance_at = some ex →
      ex.status = "Canceled" →
      ∀ ev ∈ seriesEvents st s weekStart weekEnd,
        ev.originalInstanceAt ≠ some item.original_instance_at)
    ∧ (∀ ex,
      exLookup (st.exceptions.filter (fun e => e.recurring_series_id == s.id))
          item.original_instance_at = some ex →
      ex.status = "Moved" →
      ∀ ns nend, ex.new_start_at = some ns → ns ≠ 0 →
        ex.new_end_at = some nend → nend ≠ 0 →
        { id := s.id ++ ":" ++ toString item.original_instance_at
          source := "recurring"
          clientId := s.client_id
          clientName := clientNameFor st s.client_id
          startAt := ns
          endAt := nend
          status := "Scheduled"
          recurringSeriesId := some s.id
          originalInstanceAt := some item.original_instance_at } ∈
          seriesEvents st s weekStart weekEnd)
    ∧ (exLookup (st.exceptions.filter (fun e => e.recurring_series_id == s.id))
          item.original_instance_at = none →
      { id := s.id ++ ":" ++ toString item.original_instance_at
        source := "recurring"
        clientId := s.client_id
        clientName := clientNameFor st s.client_id
        startAt := item.start_at
        endAt := item.end_at
        status := "Scheduled"
        recurringSeriesId := some s.id
        originalInstanceAt := some item.original_instance_at } ∈
        seriesEvents st s weekStart weekEnd) := by
  refine ⟨?_, ?_, ?_⟩
  · intro ex hex hcanc ev hev heq
    simp only [seriesEvents] at hev
    obtain ⟨item', hm', happ⟩ := List.mem_filterMap.mp hev
    simp only [applyException] at happ
    split at happ
    · exact absurd happ (by simp)
    · rename_i hcond
      obtain rfl := Option.some.inj happ
      simp only at heq
      obtain hoia : item'.original_instance_at = item.original_instance_at :=
        Option.some.inj heq
      rw [hoia, hex] at hcond
      simp [hcanc] at hcond
  · intro ex hex hmov ns nend hns hns0 hnend hnend0
    simp only [seriesEvents]
    apply List.mem_filterMap.mpr
    refine ⟨item, hmem, ?_⟩
    rw [hex]
    have hcond :
        (Option.map (fun e : RecurringException => e.status) (some ex) ==
          some "Canceled") = false := by
      simp only [Option.map_some', hmov]
      decide
    simp [applyException, hcond, jsNumOr, hns, hns0, hnend, hnend0]
    simp [hmov]
  · intro hnone
    simp only [seriesEvents]
    apply List.mem_filterMap.mpr
    refine ⟨item, hmem, ?_⟩
    rw [hnone]
    rfl

/-- C4, witness: the spec's moved-occurrence scenario — the 2025-10-15T10:00
occurrence moved to 2025-10-16T14:00 keeps id `s1:1760522400000`. -/
theorem exception_overlay_cases_witness :
    ({ id := "s1:1760522400000", source := "recurring", clientId := "c1",
       clientName := "Alice", startAt := 1760623200000,
       endAt := 1760626200000, status := "Scheduled",
       recurringSeriesId := some "s1",
       originalInstanceAt := some 1760522400000 } : CalendarEvent) ∈
      seriesEvents movedStore wedSeries 1760313600000 1760918340000 :=
  (exception_overlay_cases movedStore wedSeries 1760313600000 1760918340000
      ⟨1760522400000, 1760522400000, 1760525400000⟩ (by decide)).2.1 movedEx
    (by decide) (by decide) 1760623200000 1760626200000 (by decide)
    (by decide) (by decide) (by decide)

/-- C10: an exception drops its instance only when its status is exactly
`'Canceled'`; any other status is applied as a move, and the move falls
back to the instance's original `startAt` (resp. `endAt`) whenever the
exception's `new_start_at` (resp. `new_end_at`) is `null` or `0`. -/
theorem overlay_cancel_iff_and_move_fallback
    (seriesId clientId clientName : String) (ex : RecurringException)
    (item : Instance) :
    (applyException seriesId clientId clientName (some ex) item = none ↔
      ex.status = "Canceled")
    ∧ (ex.status ≠ "Canceled" →
      applyException seriesId clientId clientName (some ex) item =
        some { id := seriesId ++ ":" ++ toString item.original_instance_at
               source := "recurring"
               clientId := clientId
               clientName := clientName
               startAt := jsNumOr ex.new_start_at item.start_at
               endAt := jsNumOr ex.new_end_at item.end_at
               status := "Scheduled"
               recurringSeriesId := some seriesId
               originalInstanceAt := some item.original_instance_at })
    ∧ ((ex.new_start_at = none ∨ ex.new_start_at = some 0) →
      jsNumOr ex.new_start_at item.start_at = item.start_at)
    ∧ ((ex.new_end_at = none ∨ ex.new_end_at = some 0) →
      jsNumOr ex.new_end_at item.end_at = item.end_at) := by
  refine ⟨?_, ?_, ?_, ?_⟩
  · constructor
    · intro h
      by_contra hne
      simp [applyException, hne] at h
    · intro h
      simp [applyException, h]
  · intro hne
    simp [applyException, hne]
  · intro h
    rcases h with h | h <;> simp [jsNumOr, h]
  · intro h
    rcases h with h | h <;> simp [jsNumOr, h]

theorem append_head? (p x : String) (c : Char) (h : p.data.head? = some c) :
    (p ++ x).data.head? = some c := by
  rw [String.data_append]
  cases hp : p.data with
  | nil => rw [hp] at h; exact absurd h (by simp)
  | cons a l =>
    rw [hp] at h
    simpa using h

theorem ne_of_head_ne (s t : String) (c d : Char) (hs : s.data.head? = some c)
    (ht : t.data.head? = some d) (hcd : c ≠ d) : s ≠ t := by
  intro h
  rw [h, ht] at hs
  exact hcd (Option.some.inj hs).symm

theorem uid_line_inj (x y : String)
    (h : "UID:" ++ x ++ "@local" = "UID:" ++ y ++ "@local") : x = y := by
  have hd := congrArg String.data h
  have h1 : "UID:".data ++ (x.data ++ "@local".data) =
      "UID:".data ++ (y.data ++ "@local".data) := by
    simpa [String.data_append] using hd
  exact String.ext (List.append_cancel_right (List.append_cancel_left h1))

theorem countLine_append (l1 l2 : List String) (s : String) :
    countLine (l1 ++ l2) s = countLine l1 s + countLine l2 s := by
  simp [countLine, List.filter_append]

theorem countLine_vevent (st : Store) (nowMs : Int) (a : Appointment)
    (name : String) :
    countLine (veventLines st nowMs a name) "BEGIN:VEVENT" = 1 := by
  have hB : ("BEGIN:VEVENT" : String).data.head? = some 'B' := rfl
  have hU : ("UID:" ++ a.id ++ "@local" == "BEGIN:VEVENT") = false :=
    beq_eq_false_iff_ne.mpr
      (ne_of_head_ne _ _ 'U' 'B'
        (append_head? _ _ _ (append_head? _ _ _ rfl)) hB (by decide))
  have hD1 : ("DTSTAMP:" ++ formatIcsDate nowMs == "BEGIN:VEVENT") = false :=
    beq_eq_false_iff_ne.mpr
      (ne_of_head_ne _ _ 'D' 'B' (append_head? _ _ _ rfl) hB (by decide))
  have hD2 : ("DTSTART:" ++ formatIcsDate a.start_at == "BEGIN:VEVENT") = false :=
    beq_eq_false_iff_ne.mpr
      (ne_of_head_ne _ _ 'D' 'B' (append_head? _ _ _ rfl) hB (by decide))
  have hD3 : ("DTEND:" ++ formatIcsDate a.end_at == "BEGIN:VEVENT") = false :=
    beq_eq_false_iff_ne.mpr
      (ne_of_head_ne _ _ 'D' 'B' (append_head? _ _ _ rfl) hB (by decide))
  have hS : ("SUMMARY:" ++ stripSummary name == "BEGIN:VEVENT") = false :=
    beq_eq_false_iff_ne.mpr
      (ne_of_head_ne _ _ 'S' 'B' (append_head? _ _ _ rfl) hB (by decide))
  unfold veventLines
  rw [countLine_append, countLine_append, countLine_append]
  have c1 : countLine ["BEGIN:VEVENT", "UID:" ++ a.id ++ "@local",
      "DTSTAMP:" ++ formatIcsDate nowMs, "DTSTART:" ++ formatIcsDate a.start_at,
      "DTEND:" ++ formatIcsDate a.end_at, "SUMMARY:" ++ stripSummary name]
      "BEGIN:VEVENT" = 1 := by
    simp [countLine, List.filter, hU, hD1, hD2, hD3, hS]
  have c2 : countLine
      (if a.status == "Canceled" then ["STATUS:CANCELLED"] else [])
      "BEGIN:VEVENT" = 0 := by
    split
    · decide
    · decide
  have c3 : countLine
      (match a.recurring_series_id with
        | some sid =>
          if sid == "" then []
          else
            match st.series.find? (fun s => s.id == sid) with
            | some sr => if sr.rrule == "" then [] else ["RRULE:" ++ sr.rrule]
            | none => []
        | none => []) "BEGIN:VEVENT" = 0 := by
    cases a.recurring_series_id with
    | none => rfl
    | some sid =>
      simp only
      split
      · rfl
      · cases st.series.find? (fun s => s.id == sid) with
        | none => rfl
        | some sr =>
          simp only
          split
          · rfl
          · have hR : ("RRULE:" ++ sr.rrule == "BEGIN:VEVENT") = false :=
              beq_eq_false_iff_ne.mpr
                (ne_of_head_ne _ _ 'R' 'B' (append_head? _ _ _ rfl) hB
                  (by decide))
            simp [countLine, List.filter, hR]
  rw [c1, c2, c3]
  decide

theorem countLine_icsBody (st : Store) (nowMs : Int) :
    ∀ ps : List (Appointment × String),
      countLine (ps.foldr (fun p acc => veventLines st nowMs p.1 p.2 ++ acc) [])
        "BEGIN:VEVENT" = ps.length := by
  intro ps
  induction ps with
  | nil => rfl
  | cons p t ih =>
    simp only [List.foldr_cons, countLine_append, ih, countLine_vevent,
      List.length_cons]
    omega

theorem mem_foldr_vevent (st : Store) (nowMs : Int) (x : String) :
    ∀ ps : List (Appointment × String),
      (x ∈ ps.foldr (fun p acc => veventLines st nowMs p.1 p.2 ++ acc) []) ↔
        ∃ p ∈ ps, x ∈ veventLines st nowMs p.1 p.2 := by
  intro ps
  induction ps with
  | nil => simp
  | cons p t ih =>
    simp only [List.foldr_cons, List.mem_append, ih, List.mem_cons]
    constructor
    · rintro (h | ⟨q, hq, hx⟩)
      · exact ⟨p, Or.inl rfl, h⟩
      · exact ⟨q, Or.inr hq, hx⟩
    · rintro ⟨q, hq | hq, hx⟩
      · subst hq; exact Or.inl hx
      · exact Or.inr ⟨q, hq, hx⟩

theorem mem_icsEvents (st : Store) (p : Appointment × String)
    (h : p ∈ icsEvents st) :
    p.1 ∈ st.appointments ∧ p.1.status ≠ "Canceled" := by
  unfold icsEvents at h
  obtain ⟨a, ha, hfa⟩ := List.mem_filterMap.mp h
  split at hfa
  · exact absurd hfa (by simp)
  · rename_i hns
    obtain ⟨c, hc, hpc⟩ := Option.map_eq_some'.mp hfa
    subst hpc
    exact ⟨ha, by simpa using hns⟩

theorem filterMap_join_length (cs : List Client) (l : List Appointment)
    (hfk : ∀ a ∈ l, (cs.find? (fun c => c.id == a.client_id)).isSome) :
    (l.filterMap (fun a =>
        if a.status == "Canceled" then none
        else (cs.find? (fun c => c.id == a.client_id)).map
          (fun c => (a, c.name)))).length =
      (l.filter (fun a => a.status != "Canceled")).length := by
  induction l with
  | nil => rfl
  | cons a t ih =>
    have hfk' : ∀ b ∈ t, (cs.find? (fun c => c.id == b.client_id)).isSome :=
      fun b hb => hfk b (List.mem_cons_of_mem _ hb)
    simp only [List.filterMap_cons, List.filter_cons]
    by_cases hc : (a.status == "Canceled") = true
    · have ih' := ih hfk'
      simp [hc, bne] at ih' ⊢
      omega
    · have ha := hfk a (List.mem_cons_self a t)
      obtain ⟨c, hcf⟩ := Option.isSome_iff_exists.mp ha
      have hcb : (a.status == "Canceled") = false := by
        simpa using hc
      have ih' := ih hfk'
      simp [hcb, bne, hcf] at ih' ⊢
      omega

theorem icsEvents_length (st : Store)
    (hfk : ∀ a ∈ st.appointments,
      (st.clients.find? (fun c => c.id == a.client_id)).isSome) :
    (icsEvents st).length =
      (st.appointments.filter (fun a => a.status != "Canceled")).length := by
  unfold icsEvents
  exact filterMap_join_length st.clients st.appointments hfk

theorem mem_icsEvents_of (st : Store) (a : Appointment) (c : Client)
    (ha : a ∈ st.appointments) (hnc : a.status ≠ "Canceled")
    (hcf : st.clients.find? (fun c' => c'.id == a.client_id) = some c) :
    (a, c.name) ∈ icsEvents st := by
  unfold icsEvents
  apply List.mem_filterMap.mpr
  refine ⟨a, ha, ?_⟩
  have hcb : (a.status == "Canceled") = false := beq_eq_false_iff_ne.mpr hnc
  rw [if_neg (by simp [hcb]), hcf]
  rfl

/-- C8: the ICS export emits exactly one `VEVENT` per stored non-canceled
appointment (counted by its `BEGIN:VEVENT` lines) and none for canceled
appointments (no canceled appointment's `UID` line appears), and every
exported appointment that references an existing series with a truthy rule
string carries an `RRULE:` line equal to the stored rule verbatim. The
hypotheses state the schema's referential integrity (every appointment's
client exists) and primary-key uniqueness of appointment ids. -/
theorem ics_one_vevent_per_noncanceled (st : Store) (nowMs : Int)
    (hfk : ∀ a ∈ st.appointments,
      (st.clients.find? (fun c => c.id == a.client_id)).isSome)
    (hids : st.appointments.Pairwise (fun a b => a.id ≠ b.id)) :
    countLine (icsLines st nowMs) "BEGIN:VEVENT" =
      (st.appointments.filter (fun a => a.status != "Canceled")).length
    ∧ (∀ a ∈ st.appointments, a.status ≠ "Canceled" →
        ("UID:" ++ a.id ++ "@local") ∈ icsLines st nowMs)
    ∧ (∀ a ∈ st.appointments, a.status = "Canceled" →
        ("UID:" ++ a.id ++ "@local") ∉ icsLines st nowMs)
    ∧ (∀ a ∈ st.appointments, a.status ≠ "Canceled" →
        ∀ sid, a.recurring_series_id = some sid → sid ≠ "" →
        ∀ sr, st.series.find? (fun s => s.id == sid) = some sr →
          sr.rrule ≠ "" → ("RRULE:" ++ sr.rrule) ∈ icsLines st nowMs) := by
  refine ⟨?_, ?_, ?_, ?_⟩
  · unfold icsLines
    rw [countLine_append, countLine_append, countLine_icsBody,
      icsEvents_length st hfk]
    have h1 : countLine ["BEGIN:VCALENDAR", "VERSION:2.0",
        "PRODID:-//Counseling CRM//CN", "CALSCALE:GREGORIAN"]
        "BEGIN:VEVENT" = 0 := by decide
    have h2 : countLine ["END:VCALENDAR"] "BEGIN:VEVENT" = 0 := by decide
    rw [h1, h2]
    omega
  · intro a ha hnc
    obtain ⟨c, hcf⟩ := Option.isSome_iff_exists.mp (hfk a ha)
    have hmem := mem_icsEvents_of st a c ha hnc hcf
    have hline : ("UID:" ++ a.id ++ "@local") ∈
        veventLines st nowMs a c.name := by
      unfold veventLines
      simp
    unfold icsLines
    refine List.mem_append.mpr (Or.inl ?_)
    refine List.mem_append.mpr (Or.inr ?_)
    exact (mem_foldr_vevent st nowMs _ _).mpr ⟨(a, c.name), hmem, hline⟩
  · intro a ha hc hin
    have hu : ("UID:" ++ a.id ++ "@local").data.head? = some 'U' :=
      append_head? _ _ _ (append_head? _ _ _ rfl)
    unfold icsLines at hin
    rcases List.mem_append.mp hin with hin | hfoot
    · rcases List.mem_append.mp hin with hhead | hbody
      · simp only [List.mem_cons, List.not_mem_nil, or_false] at hhead
        rcases hhead with h | h | h | h
        · exact absurd h (ne_of_head_ne _ _ 'U' 'B' hu rfl (by decide))
        · exact absurd h (ne_of_head_ne _ _ 'U' 'V' hu rfl (by decide))
        · exact absurd h (ne_of_head_ne _ _ 'U' 'P' hu rfl (by decide))
        · exact absurd h (ne_of_head_ne _ _ 'U' 'C' hu rfl (by decide))
      · obtain ⟨p, hp, hx⟩ := (mem_foldr_vevent st nowMs _ _).mp hbody
        obtain ⟨hpmem, hpnc⟩ := mem_icsEvents st p hp
        unfold veventLines at hx
        rcases List.mem_append.mp hx with hx | hx4
        · rcases List.mem_append.mp hx with hx | hxm
          · rcases List.mem_append.mp hx with hx1 | hxi
            · simp only [List.mem_cons, List.not_mem_nil, or_false] at hx1
              rcases hx1 with h | h | h | h | h | h
              · exact absurd h (ne_of_head_ne _ _ 'U' 'B' hu rfl (by decide))
              · have hid := uid_line_inj _ _ h
                have hne : a ≠ p.1 := fun he => hpnc (he ▸ hc)
                exact hids.forall (fun _ _ hxy => Ne.symm hxy) ha hpmem hne hid
              · exact absurd h (ne_of_head_ne _ _ 'U' 'D' hu
                  (append_head? _ _ _ rfl) (by decide))
              · exact absurd h (ne_of_head_ne _ _ 'U' 'D' hu
                  (append_head? _ _ _ rfl) (by decide))
              · exact absurd h (ne_of_head_ne _ _ 'U' 'D' hu
                  (append_head? _ _ _ rfl) (by decide))
              · exact absurd h (ne_of_head_ne _ _ 'U' 'S' hu
                  (append_head? _ _ _ rfl) (by decide))
            · split at hxi
              · simp only [List.mem_singleton] at hxi
                exact absurd hxi (ne_of_head_ne _ _ 'U' 'S' hu rfl (by decide))
              · simp at hxi
          · rcases hrs : p.1.recurring_series_id with _ | sid
            · rw [hrs] at hxm
              simp at hxm
            · rw [hrs] at hxm
              simp only at hxm
              split at hxm
              · simp at hxm
              · rcases hf : st.series.find? (fun s => s.id == sid) with _ | sr
                · rw [hf] at hxm
                  simp at hxm
                · rw [hf] at hxm
                  simp only at hxm
                  split at hxm
                  · simp at hxm
                  · simp only [List.mem_singleton] at hxm
                    exact absurd hxm (ne_of_head_ne _ _ 'U' 'R' hu
                      (append_head? _ _ _ rfl) (by decide))
        · simp only [List.mem_singleton] at hx4
          exact absurd hx4 (ne_of_head_ne _ _ 'U' 'E' hu rfl (by decide))
    · simp only [List.mem_singleton] at hfoot
      exact absurd hfoot (ne_of_head_ne _ _ 'U' 'E' hu rfl (by decide))
  · intro a ha hnc sid hsid hsne sr hf hrne
    obtain ⟨c, hcf⟩ := Option.isSome_iff_exists.mp (hfk a ha)
    have hmem := mem_icsEvents_of st a c ha hnc hcf
    have hline : ("RRULE:" ++ sr.rrule) ∈ veventLines st nowMs a c.name := by
      unfold veventLines
      refine List.mem_append.mpr (Or.inl ?_)
      refine List.mem_append.mpr (Or.inr ?_)
      rw [hsid]
      simp only
      rw [if_neg (by simp [hsne]), hf]
      simp only
      rw [if_neg (by simp [hrne])]
      simp
    unfold icsLines
    refine List.mem_append.mpr (Or.inl ?_)
    refine List.mem_append.mpr (Or.inr ?_)
    exact (mem_foldr_vevent st nowMs _ _).mpr ⟨(a, c.name), hmem, hline⟩

/-- C8, witness: on a store with one scheduled series-anchored appointment
and one canceled appointment, the export has exactly one `VEVENT`, contains
the anchor's `UID` line and its verbatim `RRULE` line, and no `UID` line
for the canceled appointment. -/
theorem ics_one_vevent_per_noncanceled_witness :
    countLine (icsLines icsStore 0) "BEGIN:VEVENT" = 1
    ∧ ("UID:" ++ "a1" ++ "@local") ∈ icsLines icsStore 0
    ∧ ("UID:" ++ "a2" ++ "@local") ∉ icsLines icsStore 0
    ∧ ("RRULE:" ++ "FREQ=WEEKLY;BYDAY=WE") ∈ icsLines icsStore 0 := by
  have h := ics_one_vevent_per_noncanceled icsStore 0 (by decide) (by decide)
  exact ⟨h.1.trans (by decide),
    h.2.1 anchorAppt (by decide) (by decide),
    h.2.2.1 canceledAppt (by decide) (by decide),
    h.2.2.2 anchorAppt (by decide) (by decide) "s1" (by decide) (by decide)
      wedSeries (by decide) (by decide)⟩

/-- C10, witness: a `Postponed` exception with `null` `new_start_at` and
`0` `new_end_at` is applied as a move that falls back to the original
times. -/
theorem overlay_cancel_iff_and_move_fallback_witness :
    applyException "s1" "c1" "Alice" (some weirdEx) ⟨42, 42, 99⟩ =
      some { id := "s1:42", source := "recurring", clientId := "c1",
             clientName := "Alice", startAt := 42, endAt := 99,
             status := "Scheduled", recurringSeriesId := some "s1",
             originalInstanceAt := some 42 } ∧
    jsNumOr weirdEx.new_start_at 42 = 42 ∧
    jsNumOr weirdEx.new_end_at 99 = 99 :=
  ⟨(overlay_cancel_iff_and_move_fallback "s1" "c1" "Alice" weirdEx
      ⟨42, 42, 99⟩).2.1 (by decide),
   (overlay_cancel_iff_and_move_fallback "s1" "c1" "Alice" weirdEx
      ⟨42, 42, 99⟩).2.2.1 (Or.inl rfl),
   (overlay_cancel_iff_and_move_fallback "s1" "c1" "Alice" weirdEx
      ⟨42, 42, 99⟩).2.2.2 (Or.inr rfl)⟩

end Counseling
